import Mathlib

/-!
Verification of the announcement-scraper core against its specification.

The development shallow-embeds the relevant Python modules:
  * `date_filter.py`   (DateFilter.parse_date_filter, matches_date_criteria, filter_by_date)
  * `http_client.py`   (HTTPClient.fetch_with_retry and its two delay schedules)
  * `homepage_parser.py` (JSON-path URL de-duplication, the HTML-fallback anchor
    scan and its URL allow/deny classifier `_is_announcement_url`)
  * `content_extractor.py` (title cascade, content-length gate, publication-date
    resolution of `parse_announcement_page`)

Strings are modelled as `List Char`; character classes (`\d`, `str.lower`,
`str.strip`) are modelled over ASCII, which covers every literal the code
compares against.  Machine-level HTML/DOM parsing (BeautifulSoup) is not
embedded: a parsed page or anchor is represented by the data each selector of
the source reads from it, and every decision the source takes on that data is
translated faithfully.
-/

namespace AwsScraper

/-- Calendar date (year, month, day), the projection of a Python `datetime`
that the scraper's filtering logic reads. -/
structure Date where
  year : Nat
  month : Nat
  day : Nat
deriving DecidableEq, Repr

/-- Numeric value of an ASCII digit character. -/
def digit_val (c : Char) : Nat := c.toNat - 48

/-- Value of a digit string, as Python `int` reads it left to right. -/
def int_of_digits (cs : List Char) : Nat :=
  cs.foldl (fun n c => n * 10 + digit_val c) 0

/-- Shared digit/hyphen test of the regex `^\d{4}-\d{2}$` body. -/
def date_pattern_core (a b c d h e f : Char) : Bool :=
  a.isDigit && b.isDigit && c.isDigit && d.isDigit && h == '-' && e.isDigit && f.isDigit

/-- Python `re.match(r..., s)` with pattern `^\d{4}-\d{2}$`, returning the two
numbers on a match.  Python's `$` also matches just before a single trailing
newline, so an 8-character string ending in a newline is accepted as well;
`int` then ignores that trailing whitespace. -/
def date_pattern_match : List Char → Option (Nat × Nat)
  | [a, b, c, d, h, e, f] =>
    if date_pattern_core a b c d h e f then
      some (int_of_digits [a, b, c, d], int_of_digits [e, f])
    else none
  | [a, b, c, d, h, e, f, n] =>
    if date_pattern_core a b c d h e f && n == '\n' then
      some (int_of_digits [a, b, c, d], int_of_digits [e, f])
    else none
  | _ => none

/-- Embeds `DateFilter.parse_date_filter`.  `Except.error ()` models a raised
`ValueError`; `Except.ok none` is the `return None` taken on a falsy (empty)
input string; `Except.ok (some (y, m))` is the returned tuple. -/
def parse_date_filter (s : List Char) : Except Unit (Option (Nat × Nat)) :=
  if s.isEmpty then Except.ok none
  else
    match date_pattern_match s with
    | none => Except.error ()
    | some (year, month) =>
      if month < 1 || month > 12 then Except.error ()
      else if year < 2000 || year > 2100 then Except.error ()
      else Except.ok (some (year, month))

/-- Embeds `DateFilter.matches_date_criteria`.  The announcement date is an
`Option Date` because the source explicitly guards `if not announcement_date`
and returns `False` for an absent date. -/
def matches_date_criteria (announcement_date : Option Date)
    (target_year target_month : Nat) : Bool :=
  match announcement_date with
  | none => false
  | some d => d.year == target_year && d.month == target_month

/-- Link found inside announcement content (`models.EmbeddedLink`). -/
structure EmbeddedLink where
  text : List Char
  url : List Char
  context : List Char
deriving DecidableEq, Repr

/-- Extracted announcement record (`models.AnnouncementContent`).  The Python
dataclass annotates `publication_date : datetime`, but annotations are not
enforced at runtime and `matches_date_criteria` explicitly handles an absent
date, so the field is modelled as `Option Date`. -/
structure AnnouncementContent where
  title : List Char
  url : List Char
  publication_date : Option Date
  content_text : List Char
  embedded_links : List EmbeddedLink
  extraction_timestamp : Date
deriving DecidableEq, Repr

/-- Embeds `DateFilter.filter_by_date`.  `if not date_filter` in the source is
true both for `None` and for the empty string. -/
def filter_by_date (announcements : List AnnouncementContent)
    (date_filter : Option (List Char)) : Except Unit (List AnnouncementContent) :=
  match date_filter with
  | none => Except.ok announcements
  | some s =>
    if s.isEmpty then Except.ok announcements
    else
      match parse_date_filter s with
      | Except.error e => Except.error e
      | Except.ok none => Except.ok announcements
      | Except.ok (some (target_year, target_month)) =>
        Except.ok (announcements.filter fun a =>
          matches_date_criteria a.publication_date target_year target_month)

/-- Outcome of a single `HTTPClient.fetch_page` call: a 2xx body, an
`HTTPError` carrying a status code, a transport timeout, a connection error,
or any other `RequestException`. -/
inductive FetchOutcome where
  | success (body : Nat)
  | httpStatus (status : Nat)
  | timeout
  | connectionError
  | otherException
deriving DecidableEq, Repr

/-- Result surfaced by `fetch_with_retry`: the body, or the raised error. -/
inductive FetchResult where
  | ok (body : Nat)
  | err (e : FetchOutcome)
deriving DecidableEq, Repr

/-- Embeds `HTTPClient._calculate_exponential_backoff`: `min(2 ** attempt, 4)`. -/
def calculate_exponential_backoff (attempt : Nat) : Nat :=
  min (2 ^ attempt) 4

/-- Embeds `HTTPClient._calculate_rate_limit_delay`: `[5, 10, 20]` indexed by
`min(attempt, 2)`. -/
def calculate_rate_limit_delay (attempt : Nat) : Nat :=
  [5, 10, 20].getD (min attempt 2) 0

/-- Embeds the retry loop of `HTTPClient.fetch_with_retry`.  `responses` is the
server: the outcome of the attempt with the given index.  `remaining` counts
the loop iterations still allowed after the current one, so it starts at
`max_retries` and `remaining > 0` is exactly the source's
`attempt < max_retries` test; the accumulated `sleeps` list records every
`time.sleep` delay in order.  On the last allowed attempt every branch of the
source falls through to `raise`, re-raising the error just observed, which is
also the `last_exception` raised after the loop. -/
def fetch_retry_loop (responses : Nat → FetchOutcome) :
    Nat → Nat → List Nat → List Nat × FetchResult
  | remaining, attempt, sleeps =>
    match responses attempt with
    | FetchOutcome.success b => (sleeps, FetchResult.ok b)
    | FetchOutcome.httpStatus s =>
      if s == 429 then
        match remaining with
        | r + 1 =>
          fetch_retry_loop responses r (attempt + 1)
            (sleeps ++ [calculate_rate_limit_delay attempt])
        | 0 => (sleeps, FetchResult.err (FetchOutcome.httpStatus s))
      else if s == 502 || s == 503 || s == 504 then
        match remaining with
        | r + 1 =>
          fetch_retry_loop responses r (attempt + 1)
            (sleeps ++ [calculate_exponential_backoff attempt])
        | 0 => (sleeps, FetchResult.err (FetchOutcome.httpStatus s))
      else
        (sleeps, FetchResult.err (FetchOutcome.httpStatus s))
    | FetchOutcome.timeout =>
      match remaining with
      | r + 1 =>
        fetch_retry_loop responses r (attempt + 1)
          (sleeps ++ [calculate_exponential_backoff attempt])
      | 0 => (sleeps, FetchResult.err FetchOutcome.timeout)
    | FetchOutcome.connectionError =>
      match remaining with
      | r + 1 =>
        fetch_retry_loop responses r (attempt + 1)
          (sleeps ++ [calculate_exponential_backoff attempt])
      | 0 => (sleeps, FetchResult.err FetchOutcome.connectionError)
    | FetchOutcome.otherException => (sleeps, FetchResult.err FetchOutcome.otherException)

/-- Embeds `HTTPClient.fetch_with_retry`: runs the loop from attempt 0 and
returns the sleep schedule together with the surfaced result. -/
def fetch_with_retry (responses : Nat → FetchOutcome) (max_retries : Nat) :
    List Nat × FetchResult :=
  fetch_retry_loop responses max_retries 0 []

/-- Announcement link produced by Link Discovery (`models.AnnouncementLink`). -/
structure AnnouncementLink where
  title : List Char
  url : List Char
  preview_text : Option (List Char)
  publication_date : Option Date
deriving DecidableEq, Repr

/-- Embeds the URL de-duplication loop at the end of
`HomepageParser._extract_from_json_data`: walk the discovered entries in
order, keep an entry only when its URL has not been seen, and record each
kept URL in the seen set (modelled as a list). -/
def dedup_by_url_go (seen : List (List Char)) :
    List AnnouncementLink → List AnnouncementLink
  | [] => []
  | a :: rest =>
    if a.url ∈ seen then dedup_by_url_go seen rest
    else a :: dedup_by_url_go (a.url :: seen) rest

/-- De-duplication of the structured-data path, starting from an empty seen
set as the source does. -/
def dedup_by_url (announcements : List AnnouncementLink) : List AnnouncementLink :=
  dedup_by_url_go [] announcements

/-- Result of Python `urlparse` as far as `_is_announcement_url` reads it:
the network location and the path. -/
structure Url where
  netloc : List Char
  path : List Char
deriving DecidableEq, Repr

/-- Whether `needle` is a leading segment of `haystack`. -/
def startsWithSeq : List Char → List Char → Bool
  | [], _ => true
  | _ :: _, [] => false
  | a :: as, b :: bs => a == b && startsWithSeq as bs

/-- Python's substring test `needle in haystack`. -/
def hasSub (needle : List Char) : List Char → Bool
  | [] => needle.isEmpty
  | c :: rest => startsWithSeq needle (c :: rest) || hasSub needle rest

/-- Python `str.lower` restricted to ASCII, which covers every pattern the
source compares against. -/
def pyLower (s : List Char) : List Char := s.map Char.toLower

/-- Python whitespace characters recognised by `str.strip` (ASCII subset). -/
def isPySpace (c : Char) : Bool :=
  c == ' ' || c == '\t' || c == '\n' || c == '\r' || c == '\x0b' || c == '\x0c'

/-- Python `str.strip`: remove whitespace from both ends. -/
def pyStrip (s : List Char) : List Char :=
  ((s.dropWhile isPySpace).reverse.dropWhile isPySpace).reverse

/-- The navigation/non-content denylist of `_is_announcement_url`. -/
def skip_patterns : List (List Char) :=
  ["/about/", "/contact/", "/support/", "/pricing/",
   "/documentation/", "/console/", "/signin/", "/signup/",
   "javascript:", "mailto:", "#"].map String.data

/-- The announcement-path allowlist of `_is_announcement_url`. -/
def announcement_patterns : List (List Char) :=
  ["/new/", "/announcement/", "/blog/", "/press/",
   "/release/", "/update/", "/launch/"].map String.data

/-- Embeds `HomepageParser._is_announcement_url` on a parsed URL: reject a
non-empty netloc not containing `amazonaws.cn`; reject a lower-cased path
containing a denylist pattern; accept one containing an allowlist pattern;
otherwise accept exactly the non-root paths. -/
def is_announcement_url (u : Url) : Bool :=
  if !u.netloc.isEmpty && !hasSub ("amazonaws.cn").data u.netloc then false
  else
    let path := pyLower u.path
    if skip_patterns.any (fun p => hasSub p path) then false
    else if announcement_patterns.any (fun p => hasSub p path) then true
    else decide (path.length > 1) && path != ['/']

/-- An anchor tag of the HTML-fallback scan, carrying the data the source
reads from it: the raw `href` attribute, the resolved absolute URL already
parsed into netloc and path (`_resolve_url` composed with `urlparse` is
abstracted as given data), the stripped `title` attribute, the stripped
anchor text, the stripped `alt` text of an enclosed image when one exists,
and the preview text `_extract_preview_text` would find near the anchor
(its DOM-sibling walk is abstracted as given data). -/
structure Anchor where
  href : List Char
  resolved : Url
  title_attr : List Char
  text : List Char
  img_alt : Option (List Char)
  preview : Option (List Char)
deriving DecidableEq, Repr

/-- Embeds `HomepageParser._extract_link_title`: `title` attribute, then
anchor text, then image alt text, each stripped; empty when all fail. -/
def extract_link_title (a : Anchor) : List Char :=
  let t := pyStrip a.title_attr
  if !t.isEmpty then t
  else if !a.text.isEmpty then a.text
  else
    match a.img_alt with
    | some alt => let s := pyStrip alt; if !s.isEmpty then s else []
    | none => []

/-- An `AnnouncementLink` as built by the HTML-fallback path, with its URL
kept in parsed form. -/
structure HtmlLink where
  title : List Char
  url : Url
  preview_text : Option (List Char)
deriving DecidableEq, Repr

/-- Embeds the per-anchor body of the HTML-fallback loop in
`HomepageParser.extract_announcement_links`: skip a blank href, skip a URL
the classifier rejects, skip an anchor yielding no title, otherwise build
the link record. -/
def process_anchor (a : Anchor) : Option HtmlLink :=
  let href := pyStrip a.href
  if href.isEmpty then none
  else if !is_announcement_url a.resolved then none
  else
    let title := extract_link_title a
    if title.isEmpty then none
    else some ⟨title, a.resolved, a.preview⟩

/-- Embeds the HTML-fallback loop of
`HomepageParser.extract_announcement_links` over the anchors of the chosen
section, in document order. -/
def extract_announcement_links_html (anchors : List Anchor) : List HtmlLink :=
  anchors.filterMap process_anchor

/-- A detail page as `ContentExtractor.parse_announcement_page` reads it.
Each title field is the stripped text of the first element the corresponding
selector of `_extract_title` finds (`h1`, `.announcement-title`,
`.post-title`, `.article-title`, `title`), `none` when the selector matches
nothing.  `page_date` is the outcome of the `_extract_publication_date`
cascade (structured data, date selectors, text patterns - abstracted as its
result).  `flattened` is the text `_extract_formatted_text` produces for the
content area `_find_content_area` resolves, `none` when no area is found.
`links` is the result of `extract_embedded_links` (abstracted). -/
structure Page where
  h1 : Option (List Char)
  cls_announcement_title : Option (List Char)
  cls_post_title : Option (List Char)
  cls_article_title : Option (List Char)
  title_tag : Option (List Char)
  page_date : Option Date
  flattened : Option (List Char)
  links : List EmbeddedLink
deriving DecidableEq, Repr

/-- The selector cascade order of `_extract_title`. -/
def title_selector_results (p : Page) : List (Option (List Char)) :=
  [p.h1, p.cls_announcement_title, p.cls_post_title, p.cls_article_title, p.title_tag]

/-- The loop body of `_extract_title`: take the first selector whose element
exists and whose stripped text is non-empty with length strictly greater
than 5 (`if title and len(title) > 5`). -/
def first_valid_title : List (Option (List Char)) → Option (List Char)
  | [] => none
  | none :: rest => first_valid_title rest
  | some t :: rest =>
    if !t.isEmpty && decide (t.length > 5) then some t else first_valid_title rest

/-- Embeds `ContentExtractor._extract_title`. -/
def extract_title (p : Page) : Option (List Char) :=
  first_valid_title (title_selector_results p)

/-- Embeds `ContentExtractor._extract_content_text`: with a resolved content
area, accept the flattened text only when it is truthy and its stripped
length is strictly greater than 50 (`if content_text and
len(content_text.strip()) > 50`); otherwise return `None`. -/
def extract_content_text (p : Page) : Option (List Char) :=
  match p.flattened with
  | none => none
  | some t => if !t.isEmpty && decide ((pyStrip t).length > 50) then some t else none

/-- The two `ValueError`s `parse_announcement_page` can raise. -/
inductive ParseErr where
  | noTitle
  | noContent
deriving DecidableEq, Repr

/-- Embeds `ContentExtractor.parse_announcement_page`.  `supplied` is the
caller's publication date (from Link Discovery); `now` is the value
`datetime.now()` would return for the date fallback and `extraction_now`
the one used for the extraction timestamp. -/
def parse_announcement_page (p : Page) (url : List Char) (supplied : Option Date)
    (now extraction_now : Date) : Except ParseErr AnnouncementContent :=
  match extract_title p with
  | none => Except.error ParseErr.noTitle
  | some title =>
    let publication_date : Date :=
      match supplied with
      | some d => d
      | none =>
        match p.page_date with
        | some d => d
        | none => now
    match extract_content_text p with
    | none => Except.error ParseErr.noContent
    | some content_text =>
      Except.ok ⟨title, url, some publication_date, content_text, p.links, extraction_now⟩

/-- Replace the `h1` selector result of a page. -/
def set_h1 (p : Page) (v : Option (List Char)) : Page :=
  ⟨v, p.cls_announcement_title, p.cls_post_title, p.cls_article_title,
   p.title_tag, p.page_date, p.flattened, p.links⟩

/-- Replace the page-level date-cascade result of a page. -/
def set_page_date (p : Page) (v : Option Date) : Page :=
  ⟨p.h1, p.cls_announcement_title, p.cls_post_title, p.cls_article_title,
   p.title_tag, v, p.flattened, p.links⟩

/-- Remove a single trailing newline character, if present.  Used to state
where Python's `$` anchor actually cuts the input. -/
def drop_trailing_newline : List Char → List Char
  | [] => []
  | [c] => if c == '\n' then [] else [c]
  | c :: cs => c :: drop_trailing_newline cs

/-- Written from the spec's words, for comparison with the source-derived
`parse_date_filter`: the string consists of exactly a 4-digit year, a
hyphen, and a 2-digit month, and `(y, m)` is the pair of numbers written in
it (digits read positionally). -/
def spec_exact_format : List Char → Nat → Nat → Bool
  | [a, b, c, d, h, e, f], y, m =>
    a.isDigit && b.isDigit && c.isDigit && d.isDigit && h == '-'
      && e.isDigit && f.isDigit
      && (digit_val a * 1000 + digit_val b * 100 + digit_val c * 10 + digit_val d == y)
      && (digit_val e * 10 + digit_val f == m)
  | _, _, _ => false

/-- Written from the spec's words, for comparison with the source-derived
filter predicate: a record matches when its publication date is resolvable
and has the target calendar year and month; a record with no resolvable
date never matches. -/
def spec_matches_filter (y m : Nat) (a : AnnouncementContent) : Bool :=
  match a.publication_date with
  | some d => d.year == y && d.month == m
  | none => false

/-- Helper for the C3 proof: the de-duplication loop only drops elements. -/
theorem dedup_go_sublist (seen : List (List Char)) (l : List AnnouncementLink) :
    (dedup_by_url_go seen l).Sublist l := by
  induction l generalizing seen with
  | nil => simp [dedup_by_url_go]
  | cons a rest ih =>
    rw [dedup_by_url_go]
    split
    · exact (ih seen).cons a
    · exact (ih _).cons₂ a

/-- Helper for the C3 proof: nothing the loop emits has a URL in the seen set. -/
theorem dedup_go_not_mem_seen (seen : List (List Char)) (l : List AnnouncementLink) :
    ∀ b ∈ dedup_by_url_go seen l, b.url ∉ seen := by
  induction l generalizing seen with
  | nil => simp [dedup_by_url_go]
  | cons a rest ih =>
    by_cases h : a.url ∈ seen
    · rw [dedup_by_url_go, if_pos h]
      exact ih seen
    · rw [dedup_by_url_go, if_neg h]
      intro b hb
      rcases List.mem_cons.1 hb with rfl | hb
      · exact h
      · intro hbs
        exact ih (a.url :: seen) b hb (List.mem_cons_of_mem _ hbs)

/-- Helper for the C3 proof: the emitted URLs are pairwise distinct. -/
theorem dedup_go_pairwise (seen : List (List Char)) (l : List AnnouncementLink) :
    (dedup_by_url_go seen l).Pairwise (fun x y => x.url ≠ y.url) := by
  induction l generalizing seen with
  | nil => simp [dedup_by_url_go]
  | cons a rest ih =>
    by_cases h : a.url ∈ seen
    · rw [dedup_by_url_go, if_pos h]
      exact ih seen
    · rw [dedup_by_url_go, if_neg h]
      refine List.Pairwise.cons ?_ (ih _)
      intro b hb heq
      exact dedup_go_not_mem_seen (a.url :: seen) rest b hb
        (by rw [← heq]; exact List.mem_cons_self _ _)

/-- Helper for the C3 proof: among entries of a given URL, the loop keeps
exactly the first one of the input, unless that URL was already seen. -/
theorem dedup_go_filter (u : List Char) (l : List AnnouncementLink) :
    ∀ seen, (dedup_by_url_go seen l).filter (fun a => a.url == u) =
      if u ∈ seen then [] else (l.filter (fun a => a.url == u)).take 1 := by
  induction l with
  | nil =>
    intro seen
    simp [dedup_by_url_go]
  | cons a rest ih =>
    intro seen
    by_cases h : a.url ∈ seen
    · rw [dedup_by_url_go, if_pos h, ih seen]
      by_cases hu : u ∈ seen
      · simp [hu]
      · have hne : ¬(a.url == u) = true := by
          simp only [beq_iff_eq]
          intro heq
          exact hu (heq ▸ h)
        simp [hu, List.filter_cons, hne]
    · rw [dedup_by_url_go, if_neg h, List.filter_cons]
      by_cases heq : (a.url == u) = true
      · have hequ : a.url = u := by simpa using heq
        have hu : u ∉ seen := hequ ▸ h
        rw [if_neg hu, heq]
        simp only [if_pos]
        rw [List.filter_cons, heq, ih (a.url :: seen),
          if_pos (by rw [← hequ]; exact List.mem_cons_self _ _)]
        simp
      · rw [if_neg heq, ih (a.url :: seen)]
        by_cases hu : u ∈ seen
        · rw [if_pos (List.mem_cons_of_mem _ hu), if_pos hu]
        · have hnc : u ∉ a.url :: seen := by
            intro hc
            rcases List.mem_cons.1 hc with h1 | h2
            · exact heq (by simp [h1])
            · exact hu h2
          rw [if_neg hnc, if_neg hu, List.filter_cons, if_neg heq]

/-- C2: with `max_retries = 2` against a server whose every response is
status 503, `fetch_with_retry` sleeps the exponential-backoff delays
`min(2 ^ attempt, 4)` - exactly 1 second before the second attempt and
2 seconds before the third - and surfaces the last observed 503 error after
the third failing attempt. -/
theorem c2_backoff_schedule_503 :
    fetch_with_retry (fun _ => FetchOutcome.httpStatus 503) 2 =
      ([calculate_exponential_backoff 0, calculate_exponential_backoff 1],
        FetchResult.err (FetchOutcome.httpStatus 503)) ∧
    [calculate_exponential_backoff 0, calculate_exponential_backoff 1] = [1, 2] :=
  ⟨rfl, rfl⟩

/-- C3: the structured-data path's output contains no two entries with the
same URL, is a subsequence of the discovered entries (first-seen relative
order preserved), and for every URL exactly the first discovered entry with
that URL survives. -/
theorem c3_dedup_first_seen_order (l : List AnnouncementLink) :
    (dedup_by_url l).Pairwise (fun x y => x.url ≠ y.url) ∧
    (dedup_by_url l).Sublist l ∧
    ∀ u, (dedup_by_url l).filter (fun a => a.url == u) =
      (l.filter (fun a => a.url == u)).take 1 := by
  refine ⟨dedup_go_pairwise [] l, dedup_go_sublist [] l, fun u => ?_⟩
  simpa using dedup_go_filter u l []

/-- Helper for the C1 proof: characterisation of the seven-character body of
the date pattern against the spec-side exact format. -/
theorem seven_case (a b c d h e f : Char) (y m : Nat) :
    (if date_pattern_core a b c d h e f then
        some (int_of_digits [a, b, c, d], int_of_digits [e, f]) else none) = some (y, m)
      ↔ spec_exact_format [a, b, c, d, h, e, f] y m = true := by
  by_cases hc : date_pattern_core a b c d h e f = true
  · rw [if_pos hc]
    simp only [date_pattern_core, Bool.and_eq_true] at hc
    obtain ⟨⟨⟨⟨⟨⟨ha, hb⟩, hcc⟩, hd⟩, hh⟩, he⟩, hf⟩ := hc
    simp only [spec_exact_format, ha, hb, hcc, hd, hh, he, hf, Bool.and_eq_true,
      Option.some_inj, Prod.mk.injEq, beq_iff_eq, Bool.true_and, and_true, true_and]
    simp only [int_of_digits, List.foldl, digit_val]
    constructor
    · rintro ⟨h1, h2⟩
      omega
    · rintro ⟨h1, h2⟩
      omega
  · rw [if_neg hc]
    constructor
    · intro hcon
      exact absurd hcon (by simp)
    · intro hspec
      exfalso
      apply hc
      simp only [spec_exact_format, Bool.and_eq_true, beq_iff_eq] at hspec
      simp only [date_pattern_core, Bool.and_eq_true, beq_iff_eq]
      tauto

/-- Helper for the C1 proof: the source regex match succeeds with `(y, m)`
exactly when the string, after removing the single trailing newline that
Python's `$` anchor tolerates, has the spec's exact `YYYY-MM` shape. -/
theorem date_pattern_match_iff_spec (s : List Char) (y m : Nat) :
    date_pattern_match s = some (y, m) ↔
      spec_exact_format (drop_trailing_newline s) y m = true := by
  rcases s with _ | ⟨a, _ | ⟨b, _ | ⟨c, _ | ⟨d, _ | ⟨h, _ | ⟨e, _ | ⟨f, _ | ⟨n, _ | ⟨x, t⟩⟩⟩⟩⟩⟩⟩⟩⟩
  · simp [date_pattern_match, drop_trailing_newline, spec_exact_format]
  · simp only [date_pattern_match, drop_trailing_newline]
    split <;> simp [spec_exact_format]
  · simp only [date_pattern_match, drop_trailing_newline]
    split <;> simp [spec_exact_format]
  · simp only [date_pattern_match, drop_trailing_newline]
    split <;> simp [spec_exact_format]
  · simp only [date_pattern_match, drop_trailing_newline]
    split <;> simp [spec_exact_format]
  · simp only [date_pattern_match, drop_trailing_newline]
    split <;> simp [spec_exact_format]
  · simp only [date_pattern_match, drop_trailing_newline]
    split <;> simp [spec_exact_format]
  · -- length 7
    by_cases hf : f = '\n'
    · subst hf
      simp only [date_pattern_match, drop_trailing_newline]
      rw [if_neg (by simp [date_pattern_core])]
      rw [if_pos (by simp)]
      simp [spec_exact_format]
    · have hd7 : drop_trailing_newline [a, b, c, d, h, e, f] = [a, b, c, d, h, e, f] := by
        simp only [drop_trailing_newline]
        rw [if_neg (by simp [hf])]
      rw [hd7]
      exact seven_case a b c d h e f y m
  · -- length 8
    by_cases hn : n = '\n'
    · subst hn
      have hd8 : drop_trailing_newline [a, b, c, d, h, e, f, '\n'] = [a, b, c, d, h, e, f] := by
        simp only [drop_trailing_newline]
        rw [if_pos (by simp)]
      rw [hd8]
      simp only [date_pattern_match]
      rw [show (date_pattern_core a b c d h e f && ('\n' == '\n')) = date_pattern_core a b c d h e f by simp]
      exact seven_case a b c d h e f y m
    · simp only [date_pattern_match]
      rw [if_neg (by simp [hn])]
      have hd8 : drop_trailing_newline [a, b, c, d, h, e, f, n] = [a, b, c, d, h, e, f, n] := by
        simp only [drop_trailing_newline]
        rw [if_neg (by simp [hn])]
      rw [hd8]
      simp [spec_exact_format]
  · -- length ≥ 9
    simp [date_pattern_match, drop_trailing_newline, spec_exact_format]

/-- C1 (amended): `parse_date_filter` returns `None` without raising on the
empty string; it succeeds with `(y, m)` exactly when the input, after
removing a single trailing newline (which Python's `$` anchor accepts), is
exactly a 4-digit year, a hyphen and a 2-digit month with year in
[2000, 2100] and month in [1, 12], returning the pair written in the
string; on every other string it raises `ValueError`. -/
theorem c1_parse_date_filter_amended (s : List Char) :
    (parse_date_filter s = Except.ok none ↔ s = []) ∧
    (∀ y m, parse_date_filter s = Except.ok (some (y, m)) ↔
      (spec_exact_format (drop_trailing_newline s) y m = true ∧
        2000 ≤ y ∧ y ≤ 2100 ∧ 1 ≤ m ∧ m ≤ 12)) ∧
    (parse_date_filter s = Except.error () ↔
      (s ≠ [] ∧ ∀ y m, ¬(spec_exact_format (drop_trailing_newline s) y m = true ∧
        2000 ≤ y ∧ y ≤ 2100 ∧ 1 ≤ m ∧ m ≤ 12))) := by
  by_cases hs : s = []
  · subst hs
    refine ⟨by simp [parse_date_filter], fun y m => ?_, by simp [parse_date_filter]⟩
    simp [parse_date_filter, drop_trailing_newline, spec_exact_format]
  · have hne : s.isEmpty = false := by
      cases s with
      | nil => exact absurd rfl hs
      | cons a t => rfl
    cases hp : date_pattern_match s with
    | none =>
      have hspec : ∀ y m, ¬ spec_exact_format (drop_trailing_newline s) y m = true := by
        intro y m hsp
        rw [← date_pattern_match_iff_spec s y m, hp] at hsp
        exact Option.noConfusion hsp
      refine ⟨?_, fun y m => ?_, ?_⟩
      · simp [parse_date_filter, hne, hp, hs]
      · simp only [parse_date_filter, hne, Bool.false_eq_true, if_false, hp]
        constructor
        · intro hcon
          exact absurd hcon (by simp)
        · rintro ⟨hsp, -⟩
          exact absurd hsp (hspec y m)
      · simp only [parse_date_filter, hne, Bool.false_eq_true, if_false, hp]
        constructor
        · intro _
          exact ⟨hs, fun y m hc => hspec y m hc.1⟩
        · intro _
          trivial
    | some ym =>
      obtain ⟨y0, m0⟩ := ym
      have hiff : ∀ y m, spec_exact_format (drop_trailing_newline s) y m = true ↔ (y = y0 ∧ m = m0) := by
        intro y m
        rw [← date_pattern_match_iff_spec s y m, hp]
        simp only [Option.some_inj, Prod.mk.injEq]
        constructor
        · rintro ⟨h1, h2⟩
          exact ⟨h1.symm, h2.symm⟩
        · rintro ⟨h1, h2⟩
          exact ⟨h1.symm, h2.symm⟩
      by_cases hrange : 2000 ≤ y0 ∧ y0 ≤ 2100 ∧ 1 ≤ m0 ∧ m0 ≤ 12
      · have hresult : parse_date_filter s = Except.ok (some (y0, m0)) := by
          simp only [parse_date_filter, hne, Bool.false_eq_true, if_false, hp]
          rw [if_neg (by simp; omega), if_neg (by simp; omega)]
        refine ⟨?_, fun y m => ?_, ?_⟩
        · rw [hresult]
          simp [hs]
        · rw [hresult]
          simp only [Except.ok.injEq, Option.some_inj, Prod.mk.injEq]
          constructor
          · rintro ⟨rfl, rfl⟩
            exact ⟨(hiff y0 m0).2 ⟨rfl, rfl⟩, hrange.1, hrange.2.1, hrange.2.2.1, hrange.2.2.2⟩
          · rintro ⟨hsp, -⟩
            obtain ⟨rfl, rfl⟩ := (hiff y m).1 hsp
            exact ⟨rfl, rfl⟩
        · rw [hresult]
          constructor
          · intro hcon
            exact absurd hcon (by simp)
          · rintro ⟨-, hall⟩
            exact absurd ⟨(hiff y0 m0).2 ⟨rfl, rfl⟩, hrange.1, hrange.2.1, hrange.2.2.1,
              hrange.2.2.2⟩ (hall y0 m0)
      · have hresult : parse_date_filter s = Except.error () := by
          simp only [parse_date_filter, hne, Bool.false_eq_true, if_false, hp]
          by_cases hm : m0 < 1 ∨ m0 > 12
          · rw [if_pos (by simp; omega)]
          · rw [if_neg (by simp; omega), if_pos (by simp; omega)]
        refine ⟨?_, fun y m => ?_, ?_⟩
        · rw [hresult]
          simp [hs]
        · rw [hresult]
          constructor
          · intro hcon
            exact absurd hcon (by simp)
          · rintro ⟨hsp, hr1, hr2, hr3, hr4⟩
            obtain ⟨rfl, rfl⟩ := (hiff y m).1 hsp
            exact (hrange ⟨hr1, hr2, hr3, hr4⟩).elim
        · rw [hresult]
          constructor
          · intro _
            refine ⟨hs, fun y m hc => ?_⟩
            obtain ⟨hsp, hr1, hr2, hr3, hr4⟩ := hc
            obtain ⟨rfl, rfl⟩ := (hiff y m).1 hsp
            exact hrange ⟨hr1, hr2, hr3, hr4⟩
          · intro _
            rfl

/-- C1 (counterexample to the original claim): the empty string does not have
the exact `YYYY-MM` format, yet `parse_date_filter` returns `None` instead of
raising `InvalidFormat`; and the 8-character string `2026-01\n` does not
consist of exactly 4 digits, a hyphen and 2 digits, yet parsing succeeds and
returns (2026, 1). -/
theorem c1_counterexample :
    parse_date_filter [] = Except.ok none ∧
    parse_date_filter ("2026-01\n").data = Except.ok (some (2026, 1)) ∧
    ("2026-01\n").data.length = 8 ∧
    spec_exact_format ("2026-01\n").data 2026 1 = false :=
  ⟨rfl, rfl, rfl, rfl⟩

/-- Helper for the C4 proof: filtering twice with one predicate equals
filtering once. -/
theorem filter_self_idem {α : Type} (p : α → Bool) (l : List α) :
    (l.filter p).filter p = l.filter p := by
  induction l with
  | nil => rfl
  | cons a rest ih =>
    by_cases h : p a = true
    · simp [List.filter_cons, h, ih]
    · simp [List.filter_cons, h, ih]

/-- C4: with an absent (`None`) filter string `filter_by_date` is the
identity transform, and it is idempotent: whenever filtering with a given
criterion succeeds, filtering the result again with the same criterion
returns that result unchanged. -/
theorem c4_absent_identity_idempotent :
    (∀ anns, filter_by_date anns none = Except.ok anns) ∧
    (∀ anns s out, filter_by_date anns (some s) = Except.ok out →
      filter_by_date out (some s) = Except.ok out) := by
  refine ⟨fun anns => rfl, fun anns s out h => ?_⟩
  by_cases hs : s.isEmpty = true
  · simp only [filter_by_date, if_pos hs] at h ⊢
  · simp only [filter_by_date, if_neg hs] at h ⊢
    cases hp : parse_date_filter s with
    | error e =>
      rw [hp] at h
      exact Except.noConfusion h
    | ok v =>
      rw [hp] at h
      rcases v with - | ⟨y, m⟩
      · injection h with h2
        subst h2
        rfl
      · injection h with h2
        subst h2
        exact congrArg Except.ok (filter_self_idem _ _)

/-- C4 (witness): filtering a concrete already-filtered one-element list with
the same criterion returns it unchanged. -/
theorem c4_witness :
    filter_by_date
      [⟨("A").data, ("ua").data, some ⟨2026, 1, 5⟩, ("c").data, [], ⟨2026, 1, 6⟩⟩]
      (some ("2026-01").data) =
      Except.ok
        [⟨("A").data, ("ua").data, some ⟨2026, 1, 5⟩, ("c").data, [], ⟨2026, 1, 6⟩⟩] :=
  c4_absent_identity_idempotent.2
    [⟨("A").data, ("ua").data, some ⟨2026, 1, 5⟩, ("c").data, [], ⟨2026, 1, 6⟩⟩,
     ⟨("B").data, ("ub").data, some ⟨2026, 2, 5⟩, ("c").data, [], ⟨2026, 2, 6⟩⟩]
    (("2026-01").data)
    [⟨("A").data, ("ua").data, some ⟨2026, 1, 5⟩, ("c").data, [], ⟨2026, 1, 6⟩⟩]
    rfl

/-- C5: with an active, successfully parsed `(y, m)` criterion,
`filter_by_date` returns exactly the subsequence (original relative order)
of records whose publication date has calendar year `y` and month `m`;
records with no resolvable date never match and are excluded. -/
theorem c5_active_filter_exact_subsequence (anns : List AnnouncementContent)
    (s : List Char) (y m : Nat)
    (h : parse_date_filter s = Except.ok (some (y, m))) :
    filter_by_date anns (some s) = Except.ok (anns.filter (spec_matches_filter y m)) ∧
    (anns.filter (spec_matches_filter y m)).Sublist anns := by
  have hne : s.isEmpty = false := by
    cases s with
    | nil => exact absurd h (by simp [parse_date_filter])
    | cons a t => rfl
  constructor
  · simp only [filter_by_date, hne, Bool.false_eq_true, if_false, h]
    congr 1
    apply List.filter_congr
    intro a _
    cases hpd : a.publication_date <;>
      simp [matches_date_criteria, spec_matches_filter, hpd]
  · exact List.filter_sublist _

/-- C5 (witness): a concrete two-record list filtered with `2026-01` keeps
exactly the January 2026 record, and a record with an unresolvable date is
dropped. -/
theorem c5_witness :
    filter_by_date
      [⟨("A").data, ("ua").data, some ⟨2026, 1, 5⟩, ("c").data, [], ⟨2026, 1, 6⟩⟩,
       ⟨("N").data, ("un").data, none, ("c").data, [], ⟨2026, 1, 6⟩⟩,
       ⟨("B").data, ("ub").data, some ⟨2026, 2, 5⟩, ("c").data, [], ⟨2026, 2, 6⟩⟩]
      (some ("2026-01").data) =
      Except.ok
        [⟨("A").data, ("ua").data, some ⟨2026, 1, 5⟩, ("c").data, [], ⟨2026, 1, 6⟩⟩] :=
  (c5_active_filter_exact_subsequence
    [⟨("A").data, ("ua").data, some ⟨2026, 1, 5⟩, ("c").data, [], ⟨2026, 1, 6⟩⟩,
     ⟨("N").data, ("un").data, none, ("c").data, [], ⟨2026, 1, 6⟩⟩,
     ⟨("B").data, ("ub").data, some ⟨2026, 2, 5⟩, ("c").data, [], ⟨2026, 2, 6⟩⟩]
    (("2026-01").data) 2026 1 rfl).1

/-- C6 (amended): with a resolved content area whose flattened text is `t`
and a page whose title extraction succeeds, `parse_announcement_page` fails
with the content `ParseError` exactly when the whitespace-stripped flattened
text has at most 50 characters - the source requires strictly more than 50
(`len(content_text.strip()) > 50`), so a 50-character text is rejected. -/
theorem c6_content_length_gate_amended (p : Page) (t : List Char)
    (hf : p.flattened = some t) (ht : extract_title p ≠ none)
    (url : List Char) (supplied : Option Date) (now ts : Date) :
    parse_announcement_page p url supplied now ts = Except.error ParseErr.noContent ↔
      (pyStrip t).length ≤ 50 := by
  obtain ⟨title, htitle⟩ : ∃ ttl, extract_title p = some ttl := by
    cases hx : extract_title p with
    | none => exact absurd hx ht
    | some v => exact ⟨v, rfl⟩
  simp only [parse_announcement_page, htitle, extract_content_text, hf]
  by_cases hlen : (pyStrip t).length ≤ 50
  · have hcond : (!t.isEmpty && decide ((pyStrip t).length > 50)) = false := by
      have hdec : decide ((pyStrip t).length > 50) = false := by
        simp only [decide_eq_false_iff_not]
        omega
      simp [hdec]
    simp only [hcond, Bool.false_eq_true, if_false]
    simp [hlen]
  · have htne : t.isEmpty = false := by
      cases t with
      | nil => simp [pyStrip] at hlen
      | cons c cs => rfl
    have hcond : (!t.isEmpty && decide ((pyStrip t).length > 50)) = true := by
      simp only [htne, Bool.not_false, Bool.true_and, decide_eq_true_eq]
      omega
    simp only [hcond, if_true]
    constructor
    · intro hcon
      exact absurd hcon (by simp)
    · intro hc
      exact absurd hc hlen

/-- C6 (counterexample to the original claim): a page whose flattened content
text has exactly 50 characters - at least 50, so by the claim not to be
rejected on length grounds - is rejected with the content `ParseError`,
because the source demands strictly more than 50 characters. -/
theorem c6_counterexample :
    (List.replicate 50 'a').length = 50 ∧
    parse_announcement_page
      ⟨some (("A valid long title").data), none, none, none, none, none,
        some (List.replicate 50 'a'), []⟩
      (("u").data) (some ⟨2026, 1, 5⟩) ⟨2026, 1, 5⟩ ⟨2026, 1, 5⟩ =
      Except.error ParseErr.noContent :=
  ⟨rfl, rfl⟩

/-- C6 (witness): a page with a title and a 30-character flattened text is
rejected with the content `ParseError`, by the amended theorem. -/
theorem c6_witness :
    parse_announcement_page
      ⟨some (("A valid long title").data), none, none, none, none, none,
        some (List.replicate 30 'a'), []⟩
      (("u").data) (some ⟨2026, 1, 5⟩) ⟨2026, 1, 5⟩ ⟨2026, 1, 5⟩ =
      Except.error ParseErr.noContent :=
  (c6_content_length_gate_amended
    ⟨some (("A valid long title").data), none, none, none, none, none,
      some (List.replicate 30 'a'), []⟩
    (List.replicate 30 'a') rfl (by decide) (("u").data) (some ⟨2026, 1, 5⟩)
    ⟨2026, 1, 5⟩ ⟨2026, 1, 5⟩).mpr (by decide)

/-- C7: a detail page none of whose title selectors matches any element
fails with the title `ParseError`; and an `h1` whose stripped text has
exactly 5 characters is treated as absent - the title cascade produces the
same result as on the page with no `h1` at all, falling through to the next
selector. -/
theorem c7_title_cascade_boundary :
    (∀ p url supplied now ts,
      p.h1 = none → p.cls_announcement_title = none → p.cls_post_title = none →
      p.cls_article_title = none → p.title_tag = none →
      parse_announcement_page p url supplied now ts = Except.error ParseErr.noTitle) ∧
    (∀ p t, p.h1 = some t → t.length = 5 →
      extract_title p = extract_title (set_h1 p none)) := by
  constructor
  · intro p url supplied now ts h1 h2 h3 h4 h5
    simp only [parse_announcement_page, extract_title, title_selector_results,
      h1, h2, h3, h4, h5, first_valid_title]
  · intro p t h1 hlen
    simp only [extract_title, title_selector_results, set_h1, h1, first_valid_title, hlen]
    simp

/-- C7 (witness): a concrete page with no title-bearing element fails with
the title `ParseError`, by the theorem's first part. -/
theorem c7_witness :
    parse_announcement_page ⟨none, none, none, none, none, none, some (("x").data), []⟩
      (("u").data) none ⟨2026, 1, 5⟩ ⟨2026, 1, 5⟩ = Except.error ParseErr.noTitle :=
  c7_title_cascade_boundary.1
    ⟨none, none, none, none, none, none, some (("x").data), []⟩
    (("u").data) none ⟨2026, 1, 5⟩ ⟨2026, 1, 5⟩ rfl rfl rfl rfl rfl

/-- C9: every successfully extracted record has a resolved (non-absent)
publication date; a caller-supplied date is used verbatim - the result does
not depend on the page-level date cascade at all - and with no supplied
date and a failed page-level cascade the date defaults to the extraction
time `now`. -/
theorem c9_publication_date_resolved :
    (∀ p url supplied now ts c,
      parse_announcement_page p url supplied now ts = Except.ok c →
      (∃ d, c.publication_date = some d) ∧
      (∀ d, supplied = some d → c.publication_date = some d) ∧
      (supplied = none → p.page_date = none → c.publication_date = some now)) ∧
    (∀ p url d q now ts,
      parse_announcement_page (set_page_date p q) url (some d) now ts =
        parse_announcement_page p url (some d) now ts) := by
  constructor
  · intro p url supplied now ts c h
    simp only [parse_announcement_page] at h
    cases hx : extract_title p with
    | none =>
      rw [hx] at h
      exact Except.noConfusion h
    | some title =>
      rw [hx] at h
      cases hc : extract_content_text p with
      | none =>
        rw [hc] at h
        exact Except.noConfusion h
      | some ct =>
        rw [hc] at h
        injection h with h2
        subst h2
        refine ⟨⟨_, rfl⟩, ?_, ?_⟩
        · intro d hd
          subst hd
          rfl
        · intro hs hpd
          subst hs
          simp [hpd]
  · intro p url d q now ts
    rfl

/-- C9 (witness): a concrete successful extraction with a supplied date of
2026-01-15 carries exactly that publication date, by the theorem. -/
theorem c9_witness :
    (AnnouncementContent.mk (("A valid long title").data) (("u").data)
        (some ⟨2026, 1, 15⟩) (List.replicate 51 'b') [] ⟨2026, 1, 16⟩).publication_date =
      some ⟨2026, 1, 15⟩ :=
  (c9_publication_date_resolved.1
    ⟨some (("A valid long title").data), none, none, none, none, none,
      some (List.replicate 51 'b'), []⟩
    (("u").data) (some ⟨2026, 1, 15⟩) ⟨2026, 1, 16⟩ ⟨2026, 1, 16⟩
    (AnnouncementContent.mk (("A valid long title").data) (("u").data)
      (some ⟨2026, 1, 15⟩) (List.replicate 51 'b') [] ⟨2026, 1, 16⟩)
    rfl).2.1 ⟨2026, 1, 15⟩ rfl

/-- Helper shared by the C8 and C10 proofs: an emitted link's URL is the
anchor's resolved URL and was accepted by the classifier. -/
theorem process_anchor_url_accepted (a : Anchor) (out : HtmlLink)
    (h : process_anchor a = some out) :
    out.url = a.resolved ∧ is_announcement_url a.resolved = true := by
  simp only [process_anchor] at h
  by_cases h1 : (pyStrip a.href).isEmpty = true
  · rw [if_pos h1] at h
    exact Option.noConfusion h
  · rw [if_neg h1] at h
    by_cases h2 : is_announcement_url a.resolved = true
    · simp only [h2, Bool.not_true, Bool.false_eq_true, if_false] at h
      by_cases h3 : (extract_link_title a).isEmpty = true
      · rw [if_pos h3] at h
        exact Option.noConfusion h
      · rw [if_neg h3] at h
        injection h with h4
        subst h4
        exact ⟨rfl, h2⟩
    · have h2f : is_announcement_url a.resolved = false := by
        cases hb : is_announcement_url a.resolved
        · rfl
        · exact absurd hb h2
      simp only [h2f, Bool.not_false, if_true] at h
      exact Option.noConfusion h

/-- Helper for the C8 proof: a same- or off-domain URL whose path is
`/about/team` is always rejected by the classifier - either by the domain
check or by the `/about/` entry of the navigation denylist. -/
theorem about_team_always_rejected (n : List Char) :
    is_announcement_url ⟨n, ("/about/team").data⟩ = false := by
  simp only [is_announcement_url]
  by_cases hn : (!List.isEmpty n && !hasSub ("amazonaws.cn").data n) = true
  · rw [if_pos hn]
  · rw [if_neg hn, if_pos (by decide)]

/-- Helper for the C8 proof: a same-domain URL whose path is
`/new/2026/01/feature-x` is accepted by the classifier - no denylist entry
occurs in the path and `/new/` is on the allowlist. -/
theorem feature_x_accepted (n : List Char)
    (hdom : (List.isEmpty n || hasSub ("amazonaws.cn").data n) = true) :
    is_announcement_url ⟨n, ("/new/2026/01/feature-x").data⟩ = true := by
  have hn : (!List.isEmpty n && !hasSub ("amazonaws.cn").data n) = false := by
    rcases Bool.or_eq_true_iff.mp hdom with h | h <;> simp [h]
  simp only [is_announcement_url, hn, Bool.false_eq_true, if_false]
  rw [if_neg (by decide), if_pos (by decide)]

/-- C8: in the HTML-fallback anchor scan, no emitted link ever has the
resolved path `/about/team` (the navigation denylist excludes it); and an
anchor with a non-blank href, a resolved same-domain path of
`/new/2026/01/feature-x`, and a non-empty resolved title is included in the
output. -/
theorem c8_denylist_allowlist :
    (∀ anchors, ∀ out ∈ extract_announcement_links_html anchors,
      out.url.path ≠ ("/about/team").data) ∧
    (∀ anchors, ∀ a ∈ anchors,
      a.resolved.path = ("/new/2026/01/feature-x").data →
      (List.isEmpty a.resolved.netloc || hasSub ("amazonaws.cn").data a.resolved.netloc) = true →
      (pyStrip a.href).isEmpty = false →
      (extract_link_title a).isEmpty = false →
      HtmlLink.mk (extract_link_title a) a.resolved a.preview ∈
        extract_announcement_links_html anchors) := by
  constructor
  · intro anchors out hout hpath
    obtain ⟨a, ha, hpa⟩ := List.mem_filterMap.1 hout
    obtain ⟨hurl, hacc⟩ := process_anchor_url_accepted a out hpa
    have hres : a.resolved = ⟨a.resolved.netloc, ("/about/team").data⟩ := by
      rw [← hpath, ← hurl]
    rw [hres, about_team_always_rejected] at hacc
    exact Bool.noConfusion hacc
  · intro anchors a ha hpath hdom hhref htitle
    refine List.mem_filterMap.2 ⟨a, ha, ?_⟩
    have hacc : is_announcement_url a.resolved = true := by
      have hres : a.resolved = ⟨a.resolved.netloc, ("/new/2026/01/feature-x").data⟩ := by
        rw [← hpath]
      rw [hres]
      exact feature_x_accepted a.resolved.netloc hdom
    simp only [process_anchor, hhref, Bool.false_eq_true, if_false, hacc,
      Bool.not_true, htitle]

/-- C8 (witness): a concrete anchor to `/new/2026/01/feature-x` on the
`www.amazonaws.cn` host, carrying a title attribute, is included in the
output, by the theorem's second part. -/
theorem c8_witness :
    HtmlLink.mk (("Launch FeatureX").data)
        ⟨("www.amazonaws.cn").data, ("/new/2026/01/feature-x").data⟩ none ∈
      extract_announcement_links_html
        [⟨("/new/2026/01/feature-x").data,
          ⟨("www.amazonaws.cn").data, ("/new/2026/01/feature-x").data⟩,
          ("Launch FeatureX").data, [], none, none⟩] :=
  c8_denylist_allowlist.2
    [⟨("/new/2026/01/feature-x").data,
      ⟨("www.amazonaws.cn").data, ("/new/2026/01/feature-x").data⟩,
      ("Launch FeatureX").data, [], none, none⟩]
    ⟨("/new/2026/01/feature-x").data,
      ⟨("www.amazonaws.cn").data, ("/new/2026/01/feature-x").data⟩,
      ("Launch FeatureX").data, [], none, none⟩
    (List.mem_singleton.mpr rfl) rfl (by decide) rfl rfl

/-- C10 (implicit): the classifier rejects every URL whose non-empty netloc
does not contain the substring `amazonaws.cn`, regardless of its path; hence
every link emitted by the HTML-fallback scan with a non-empty netloc has a
netloc containing `amazonaws.cn` - off-domain links never appear. -/
theorem c10_offdomain_never_output :
    (∀ u : Url, u.netloc.isEmpty = false →
      hasSub ("amazonaws.cn").data u.netloc = false →
      is_announcement_url u = false) ∧
    (∀ anchors, ∀ out ∈ extract_announcement_links_html anchors,
      out.url.netloc.isEmpty = false →
      hasSub ("amazonaws.cn").data out.url.netloc = true) := by
  constructor
  · intro u h1 h2
    simp only [is_announcement_url]
    rw [if_pos (by simp [h1, h2])]
  · intro anchors out hout hnet
    obtain ⟨a, ha, hpa⟩ := List.mem_filterMap.1 hout
    obtain ⟨hurl, hacc⟩ := process_anchor_url_accepted a out hpa
    rw [← hurl] at hacc
    cases hb : hasSub ("amazonaws.cn").data out.url.netloc
    · exfalso
      have hrej : is_announcement_url out.url = false := by
        simp only [is_announcement_url]
        rw [if_pos (by simp [hnet, hb])]
      rw [hacc] at hrej
      exact Bool.noConfusion hrej
    · rfl

/-- C10 (witness): a concrete off-domain URL with an allowlisted path is
rejected by the classifier, by the theorem's first part. -/
theorem c10_witness :
    is_announcement_url ⟨("evil.com").data, ("/new/x").data⟩ = false :=
  c10_offdomain_never_output.1 ⟨("evil.com").data, ("/new/x").data⟩ rfl (by decide)

end AwsScraper
